import Mathlib

/-!
Verification of the runtime interception / memory-introspection subsystem
of the cstrike2-hack repository, shallow-embedded in Lean.

The embedding follows the defensive variants that the specification declares
canonical: the pattern scanner and interface resolver of
src/cheat/src/utils/module_handler/mod.rs, the hook manager of
src/cheat/src/utils/hook_system/mod.rs, and the module registry of
src/cheat/src/cs2/modules/mod.rs.

Machine addresses and bytes are modelled as Nat (a null pointer is 0).
External effects (OS module lookup, the MinHook primitive, the state of the
registry mutex) are passed in explicitly as oracle arguments, so each Rust
function becomes a pure Lean function of its inputs plus those oracles.
Rust panics are modelled with Except.error.
-/

namespace CS2

/-! ## Pattern scanner (module_handler/mod.rs, pattern_search) -/

/-- Value of one hex digit, as in char::to_digit(16) used by
u8::from_str_radix: 0-9, a-f, A-F. -/
def hexDigit? (c : Char) : Option Nat :=
  let n := c.toNat
  if 48 ≤ n ∧ n ≤ 57 then some (n - 48)
  else if 97 ≤ n ∧ n ≤ 102 then some (n - 87)
  else if 65 ≤ n ∧ n ≤ 70 then some (n - 55)
  else none

/-- Accumulating digit loop of u8::from_str_radix(s, 16): each step multiplies
by the radix and adds the digit with overflow checks against u8::MAX. -/
def parseHexNat : List Char → Nat → Option Nat
  | [], acc => some acc
  | c :: cs, acc =>
    match hexDigit? c with
    | none => none
    | some d => if acc * 16 + d ≤ 255 then parseHexNat cs (acc * 16 + d) else none

/-- u8::from_str_radix(s, 16): an optional leading plus sign, then a nonempty
run of hex digits, rejecting overflow past 255. -/
def from_str_radix_16_u8 (s : String) : Option Nat :=
  let cs := match s.data with
    | c :: rest => if c = '+' then rest else s.data
    | [] => []
  match cs with
  | [] => none
  | _ => parseHexNat cs 0

/-- One token of the pattern string: "??" is a wildcard (none); anything else
must parse as a hex byte. Mirrors the closure inside pattern_search. -/
def parse_pattern_token (s : String) : Option (Option Nat) :=
  if s = "??" then some none
  else (from_str_radix_16_u8 s).map some

/-- Tokeniser matching str::split_whitespace: maximal runs of non-whitespace
characters, with no empty tokens. (The source's Unicode whitespace set is
restricted to the ASCII whitespace relevant to patterns.) -/
def splitWsAux : List Char → List Char → List String
  | [], acc => match acc with
    | [] => []
    | _ => [String.mk acc.reverse]
  | c :: cs, acc =>
    if c.isWhitespace then
      match acc with
      | [] => splitWsAux cs []
      | _ => String.mk acc.reverse :: splitWsAux cs []
    else splitWsAux cs (c :: acc)

/-- pattern.split_whitespace() as a list of tokens. -/
def split_whitespace (s : String) : List String :=
  splitWsAux s.data []

/-- collect::<Result<Vec<Option<u8>>, ParseIntError>>() over the parsed
tokens: the first failing token aborts the whole parse. -/
def parseTokens : List String → Option (List (Option Nat))
  | [] => some []
  | t :: ts =>
    match parse_pattern_token t, parseTokens ts with
    | some b, some bs => some (b :: bs)
    | _, _ => none

/-- Full parse of a pattern string into concrete-byte/wildcard entries. -/
def parse_pattern (s : String) : Option (List (Option Nat)) :=
  parseTokens (split_whitespace s)

/-- The window test of the scan loop: pattern_bytes.iter().enumerate().all —
a wildcard entry matches any byte, a concrete entry b must equal the module
byte at i + j. The source indexes module_memory[i + j] directly; every index
reached by the loop is in bounds, and the get? form coincides there. -/
def matchAt (mem : List Nat) (pat : List (Option Nat)) (i : Nat) : Bool :=
  (List.range pat.length).all fun j =>
    match pat.get? j with
    | some (some b) => mem.get? (i + j) == some b
    | _ => true

/-- The scan loop of pattern_search: the first i in
0 .. (len(mem) saturating-minus len(pat)) whose window matches. Nat
subtraction is saturating, exactly like usize::saturating_sub in the
source. -/
def pattern_search_bytes (mem : List Nat) (pat : List (Option Nat)) : Option Nat :=
  (List.range (mem.length - pat.length)).find? (matchAt mem pat)

/-- pattern_search over a module image: parse the pattern (parse failure
returns none), scan, and on a hit return base_address + i, as the source
does. Nat addition cannot overflow, so the source's checked_add panic branch
is unreachable in the model. -/
def pattern_search (base : Nat) (mem : List Nat) (pattern : String) : Option Nat :=
  (parse_pattern pattern).bind fun pat =>
    (pattern_search_bytes mem pat).map fun i => base + i

/-! ## Interface resolver (module_handler/mod.rs, get_interface) -/

/-- True when the string contains a NUL character, the one way CString::new
fails. -/
def containsNul (s : String) : Bool :=
  s.data.contains (Char.ofNat 0)

/-- get_interface, with the module's export table and the CreateInterface
factory behaviour passed as oracles: exports maps an export name to its
address; factory maps an interface name to the pointer the factory returns
(0 = null). A missing CreateInterface export hits the source's
.expect(...) and panics (Except.error); an interface name that CString::new
rejects returns none; otherwise the factory's pointer is wrapped in some,
even when it is null. -/
def get_interface (exports : String → Option Nat) (factory : String → Nat)
    (interface_name : String) : Except String (Option Nat) :=
  match exports "CreateInterface" with
  | none => Except.error "Failed to cast CreateInterface to a function pointer"
  | some _ =>
    if containsNul interface_name then Except.ok none
    else Except.ok (some (factory interface_name))

/-! ## Hook manager (hook_system/mod.rs) -/

/-- A registry entry: {target, detour, original}, addresses as Nat. -/
structure Hook where
  target : Nat
  detour : Nat
  original : Nat
deriving DecidableEq

/-- Outcome of the MinHook primitive for one MH_CreateHook / MH_EnableHook
pair: createStatus is the MH_STATUS of MH_CreateHook (0 = MH_OK), original
is the trampoline pointer it writes on success, enableStatus is the
MH_STATUS of MH_EnableHook. -/
structure MHOutcome where
  createStatus : Int
  original : Nat
  enableStatus : Int
deriving DecidableEq

/-- Hook::hook as a transition on the TARGETS registry. lockPoisoned models
TARGETS.lock() returning Err: the source logs and returns false. On
createStatus = 0 the source calls MH_EnableHook but discards its status —
mirrored here by never inspecting mh.enableStatus — then push_back's the
entry and returns true; a nonzero createStatus returns false with the
registry untouched. -/
def Hook.hook (targets : List Hook) (lockPoisoned : Bool) (target detour : Nat)
    (mh : MHOutcome) : List Hook × Bool :=
  if lockPoisoned then (targets, false)
  else if mh.createStatus = 0 then
    (targets ++ [Hook.mk target detour mh.original], true)
  else (targets, false)

/-- Hook::get_proto_original: on a poisoned lock the source logs and returns
None; otherwise a front-to-back find over the VecDeque by detour address,
mapping the hit to its original pointer. -/
def Hook.get_proto_original (targets : List Hook) (lockPoisoned : Bool)
    (detour : Nat) : Option Nat :=
  if lockPoisoned then none
  else (targets.find? fun hk => hk.detour == detour).map fun hk => hk.original

/-- One invocation of Hook::hook: the lock state, the arguments, and the
primitive's outcome. -/
structure HookCall where
  lockPoisoned : Bool
  target : Nat
  detour : Nat
  mh : MHOutcome
deriving DecidableEq

/-- A sequence of Hook::hook calls run against a starting registry. -/
def runHooks : List HookCall → List Hook → List Hook
  | [], st => st
  | c :: cs, st => runHooks cs (Hook.hook st c.lockPoisoned c.target c.detour c.mh).1

/-! ## Module registry (cs2/modules/mod.rs) -/

/-- A Module entry: its name and OS handle. -/
structure Module where
  name : String
  handle : Nat
deriving DecidableEq

/-- names.iter().map(|&name| Module::new(name)).collect(): Module::new
panics (None here) when the OS lookup fails for a name. -/
def namesToModules (lookup : String → Option Nat) : List String → Option (List Module)
  | [] => some []
  | n :: ns =>
    match lookup n with
    | none => none
    | some h => (namesToModules lookup ns).map fun ms => Module.mk n h :: ms

/-- initialize_modules as a transition on the MODULES once-cell (none =
unset). If the cell is already set the source bails with
"modules are already initialized" before touching it; otherwise it builds
the module list (a missing module panics inside Module::new, before the
cell is set) and then sets the cell, which cannot fail since it was unset. -/
def initialize_modules (st : Option (List Module)) (lookup : String → Option Nat)
    (names : List String) : Option (List Module) × Except String Unit :=
  match st with
  | some mods => (some mods, Except.error "modules are already initialized")
  | none =>
    match namesToModules lookup names with
    | none => (none, Except.error "failed to get module handle")
    | some mods => (some mods, Except.ok ())

/-! ## Specification-side predicates -/

/-- The spec's match predicate at offset o: every concrete byte of the
pattern equals the buffer byte at o plus its index (a position that must
exist in the buffer). Wildcards constrain nothing. -/
def specMatchesAt (mem : List Nat) (pat : List (Option Nat)) (o : Nat) : Prop :=
  ∀ j b, pat.get? j = some (some b) → mem.get? (o + j) = some b

/-- The window condition the code actually scans: the offset is strictly
below len(mem) - len(pat) 's exclusive bound, i.e. o + len(pat) < len(mem),
and all concrete bytes match. -/
def codeMatchesAt (mem : List Nat) (pat : List (Option Nat)) (o : Nat) : Prop :=
  o + pat.length < mem.length ∧ specMatchesAt mem pat o

/-- The boolean window test decides the spec's match predicate. -/
theorem matchAt_iff (mem : List Nat) (pat : List (Option Nat)) (i : Nat) :
    matchAt mem pat i = true ↔ specMatchesAt mem pat i := by
  unfold matchAt specMatchesAt
  rw [List.all_eq_true]
  constructor
  · intro h j b hjb
    have hjlen : j < pat.length := by
      by_contra hge
      rw [List.get?_eq_none.mpr (Nat.le_of_not_lt hge)] at hjb
      exact Option.noConfusion hjb
    have := h j (List.mem_range.mpr hjlen)
    rw [hjb] at this
    exact eq_of_beq this
  · intro h j hj
    rcases hpj : pat.get? j with _ | ob
    · rfl
    · rcases ob with _ | b
      · rfl
      · simpa using h j b hpj

instance (mem : List Nat) (pat : List (Option Nat)) (o : Nat) :
    Decidable (specMatchesAt mem pat o) :=
  decidable_of_iff (matchAt mem pat o = true) (matchAt_iff mem pat o)

/-- find? returns an element satisfying the predicate, located after a
(possibly empty) run of elements that all fail it. -/
theorem find?_first {α : Type} {p : α → Bool} :
    ∀ (l : List α) (x : α), l.find? p = some x →
      p x = true ∧ ∃ k, l.get? k = some x ∧ ∀ j < k, ∀ y, l.get? j = some y → p y = false := by
  intro l
  induction l with
  | nil => intro x h; simp at h
  | cons a l ih =>
    intro x h
    by_cases hpa : p a = true
    · rw [List.find?_cons_of_pos _ hpa] at h
      injection h with h
      subst h
      exact ⟨hpa, 0, rfl, fun j hj => absurd hj (Nat.not_lt_zero j)⟩
    · rw [List.find?_cons_of_neg _ hpa] at h
      obtain ⟨hx, k, hk, hmin⟩ := ih x h
      refine ⟨hx, k + 1, hk, ?_⟩
      intro j hj y hy
      cases j with
      | zero =>
        injection hy with hy
        subst hy
        exact Bool.eq_false_iff.mpr hpa
      | succ j' => exact hmin j' (Nat.lt_of_succ_lt_succ hj) y hy

/-- Scanning List.range n returns the least index below n satisfying p, and
none exactly when no index below n satisfies p. -/
theorem find?_range_spec (n : Nat) (p : Nat → Bool) :
    (∀ i, (List.range n).find? p = some i → p i = true ∧ i < n ∧ ∀ j < i, p j = false) ∧
    ((List.range n).find? p = none → ∀ j < n, p j = false) := by
  constructor
  · intro i h
    obtain ⟨hpi, k, hk, hmin⟩ := find?_first (List.range n) i h
    have hkn : k < n := by
      by_contra hge
      rw [List.get?_eq_none.mpr (by simpa using Nat.le_of_not_lt hge)] at hk
      exact Option.noConfusion hk
    have hik : i = k := by
      have := List.get?_range hkn
      rw [this] at hk
      exact (Option.some.injEq _ _ ▸ hk.symm)
    subst hik
    refine ⟨hpi, hkn, ?_⟩
    intro j hj
    exact hmin j hj j (List.get?_range (Nat.lt_trans hj hkn))
  · intro h j hj
    have := List.find?_eq_none.mp h j (List.mem_range.mpr hj)
    exact Bool.eq_false_iff.mpr this

/-- Unfolds pattern_search once the pattern has parsed. -/
theorem pattern_search_eq_of_parse (base : Nat) (mem : List Nat) (s : String)
    (pat : List (Option Nat)) (hp : parse_pattern s = some pat) :
    pattern_search base mem s = (pattern_search_bytes mem pat).map fun i => base + i := by
  unfold pattern_search
  rw [hp]
  rfl

/-- Parsing a run of k wildcard tokens yields k wildcard entries. -/
theorem parseTokens_replicate (k : Nat) :
    parseTokens (List.replicate k "??") = some (List.replicate k none) := by
  induction k with
  | zero => rfl
  | succ k ih =>
    rw [List.replicate_succ, List.replicate_succ]
    unfold parseTokens
    rw [ih]
    rfl

/-- An all-wildcard window matches anywhere. -/
theorem matchAt_replicate_none (mem : List Nat) (k i : Nat) :
    matchAt mem (List.replicate k none) i = true := by
  unfold matchAt
  rw [List.all_eq_true]
  intro j hj
  have hjk : j < k := by simpa using List.mem_range.mp hj
  have hg : (List.replicate k (none : Option Nat)).get? j = some none := by
    rw [List.get?_eq_getElem?, List.getElem?_replicate]
    simp [hjk]
  rw [hg]

/-- C1, corrected. For a module image and a pattern that parses, the scan
returns base + o for the smallest offset o that lies strictly inside the
scanned range (o + len(P) < len(B)) and matches every concrete byte, and
returns absent exactly when no offset in that strict range matches. (The
claim as stated — absent only when no matching offset exists at all — fails:
the loop bound len(B) - len(P) is exclusive, so a match flush with the end
of the image is never examined; see the counterexample.) -/
theorem pattern_search_first_match (base : Nat) (mem : List Nat) (s : String)
    (pat : List (Option Nat)) (hp : parse_pattern s = some pat) :
    (∀ r, pattern_search base mem s = some r →
       codeMatchesAt mem pat (r - base) ∧ ∀ o' < r - base, ¬ codeMatchesAt mem pat o') ∧
    (pattern_search base mem s = none → ∀ o, ¬ codeMatchesAt mem pat o) := by
  have key := pattern_search_eq_of_parse base mem s pat hp
  have hspec := find?_range_spec (mem.length - pat.length) (matchAt mem pat)
  constructor
  · intro r hr
    rw [key] at hr
    rcases hfind : pattern_search_bytes mem pat with _ | i
    · rw [hfind] at hr
      exact absurd hr (by simp)
    · rw [hfind] at hr
      have hri : base + i = r := by simpa using hr
      obtain ⟨hm, hin, hmin⟩ := hspec.1 i hfind
      have hrb : r - base = i := by omega
      rw [hrb]
      refine ⟨⟨by omega, (matchAt_iff mem pat i).mp hm⟩, ?_⟩
      intro o' ho' hc
      have := hmin o' ho'
      rw [(matchAt_iff mem pat o').mpr hc.2] at this
      exact Bool.noConfusion this
  · intro hnone o hc
    rw [key] at hnone
    rcases hfind : pattern_search_bytes mem pat with _ | i
    · have hall := hspec.2 hfind
      have hb := hc.1
      have ho : o < mem.length - pat.length := by omega
      have := hall o ho
      rw [(matchAt_iff mem pat o).mpr hc.2] at this
      exact Bool.noConfusion this
    · rw [hfind] at hnone
      exact absurd hnone (by simp)

/-- C1 witness: on image [0, 171, 1, 5], pattern "AB ??" is found at offset 1,
and offset 0 does not match. -/
theorem pattern_search_first_match_witness :
    codeMatchesAt [0, 171, 1, 5] [some 171, none] 1 ∧
      ¬ codeMatchesAt [0, 171, 1, 5] [some 171, none] 0 := by
  have h := (pattern_search_first_match 0 [0, 171, 1, 5] "AB ??" [some 171, none]
    (by decide)).1 1 (by decide)
  exact ⟨h.1, h.2 0 (by decide)⟩

/-- C1 counterexample: on the one-byte image [0xAA], pattern "AA" matches the
spec's predicate at offset 0 (and 0 + 1 ≤ 1), yet pattern_search returns
absent, because the loop range 0 .. (1 - 1) is empty. -/
theorem pattern_search_misses_tail_match :
    specMatchesAt [170] [some 170] 0 ∧
      (0 : Nat) + ([some 170] : List (Option Nat)).length ≤ [170].length ∧
      parse_pattern "AA" = some [some 170] ∧
      pattern_search 0 [170] "AA" = none :=
  ⟨by decide, by decide, by decide, by decide⟩

/-- C6, corrected. A pattern of k wildcard tokens matches at offset 0 (the
returned address is base + 0) for every image with len(B) > k — strictly
greater, not the claim's len(B) ≥ k: at len(B) = k the exclusive loop bound
makes the scanned range empty and the search returns absent (see the
counterexample). -/
theorem all_wildcard_matches_at_zero (base : Nat) (mem : List Nat) (k : Nat) (s : String)
    (hs : split_whitespace s = List.replicate k "??") (hk : k < mem.length) :
    pattern_search base mem s = some base := by
  have hp : parse_pattern s = some (List.replicate k none) := by
    unfold parse_pattern
    rw [hs, parseTokens_replicate]
  rw [pattern_search_eq_of_parse base mem s _ hp]
  have hn : 0 < mem.length - (List.replicate (α := Option Nat) k none).length := by
    rw [List.length_replicate]
    omega
  obtain ⟨m, hm⟩ : ∃ m,
      mem.length - (List.replicate (α := Option Nat) k none).length = m + 1 :=
    ⟨_, (Nat.succ_pred_eq_of_pos hn).symm⟩
  unfold pattern_search_bytes
  rw [hm, List.range_succ_eq_map,
    List.find?_cons_of_pos _ (matchAt_replicate_none mem k 0)]
  simp

/-- C6 witness: one wildcard token against a two-byte image matches at
offset 0 (address base + 0 = 4). -/
theorem all_wildcard_matches_at_zero_witness :
    pattern_search 4 [9, 9] "??" = some 4 :=
  all_wildcard_matches_at_zero 4 [9, 9] 1 "??" (by decide) (by decide)

/-- C6 counterexample: for the one-byte image [0] and the single wildcard
token "??" we have len(B) = 1 ≥ k = 1, yet the search returns absent rather
than a match at offset 0. -/
theorem all_wildcard_boundary_miss :
    [0].length ≥ (List.replicate 1 "??").length ∧
      split_whitespace "??" = List.replicate 1 "??" ∧
      pattern_search 0 [0] "??" = none :=
  ⟨by decide, by decide, by decide⟩

/-- C8, confirmed. Every address returned by pattern_search encodes an
offset o = r - base with o + len(P) ≤ len(B) (in fact strictly less), the
address lies in [base, base + len(B)), and a pattern longer than the image
returns absent — the Nat subtraction in the loop bound is saturating, like
the source's usize::saturating_sub, so no underflow occurs. -/
theorem pattern_search_result_in_bounds (base : Nat) (mem : List Nat) (s : String)
    (pat : List (Option Nat)) (hp : parse_pattern s = some pat) :
    (∀ r, pattern_search base mem s = some r →
       (r - base) + pat.length ≤ mem.length ∧ base ≤ r ∧ r < base + mem.length) ∧
    (mem.length < pat.length → pattern_search base mem s = none) := by
  have key := pattern_search_eq_of_parse base mem s pat hp
  constructor
  · intro r hr
    rw [key] at hr
    rcases hfind : pattern_search_bytes mem pat with _ | i
    · rw [hfind] at hr
      exact absurd hr (by simp)
    · rw [hfind] at hr
      have hri : base + i = r := by simpa using hr
      obtain ⟨_, hin, _⟩ :=
        (find?_range_spec (mem.length - pat.length) (matchAt mem pat)).1 i hfind
      omega
  · intro hlen
    rw [key]
    have hz : pattern_search_bytes mem pat = none := by
      unfold pattern_search_bytes
      have : mem.length - pat.length = 0 := by omega
      rw [this]
      rfl
    rw [hz]
    rfl

/-- C8 witness: pattern "AA BB" on image [170, 187, 0] at base 10 returns
address 10, which is in bounds; the same pattern on the shorter image [1]
returns absent with no underflow. -/
theorem pattern_search_result_in_bounds_witness :
    ((10 - 10) + ([some 170, some 187] : List (Option Nat)).length ≤ [170, 187, 0].length ∧
      10 ≤ 10 ∧ 10 < 10 + [170, 187, 0].length) ∧
    pattern_search 10 [1] "AA BB" = none :=
  ⟨(pattern_search_result_in_bounds 10 [170, 187, 0] "AA BB" [some 170, some 187]
      (by decide)).1 10 (by decide),
   (pattern_search_result_in_bounds 10 [1] "AA BB" [some 170, some 187]
      (by decide)).2 (by decide)⟩

/-- find? skips over a front run of elements failing the predicate. -/
theorem find?_append_of_none {α : Type} (l₁ l₂ : List α) (p : α → Bool)
    (h : ∀ x ∈ l₁, p x = false) :
    (l₁ ++ l₂).find? p = l₂.find? p := by
  induction l₁ with
  | nil => rfl
  | cons a l ih =>
    rw [List.cons_append,
      List.find?_cons_of_neg _ (by simp [h a (List.mem_cons_self a l)])]
    exact ih fun x hx => h x (List.mem_cons_of_mem a hx)

/-- With the lock healthy, get_proto_original is the registry find. -/
theorem get_proto_unlocked (st : List Hook) (d : Nat) :
    Hook.get_proto_original st false d =
      (st.find? fun hk => hk.detour == d).map fun hk => hk.original := rfl

/-- C10, confirmed. Whenever the registry is a front segment of hooks whose
detours all differ from d, followed by a hook with detour d (the earliest-
installed match, since Hook::hook appends at the back and the scan runs
front to back), followed by any later entries — including later hooks that
also carry detour d — get_proto_original returns the original pointer of
that earliest matching hook. -/
theorem resolve_first_match (pre post : List Hook) (hk : Hook) (d : Nat)
    (hd : hk.detour = d) (hpre : ∀ h ∈ pre, h.detour ≠ d) :
    Hook.get_proto_original (pre ++ hk :: post) false d = some hk.original := by
  rw [get_proto_unlocked,
    find?_append_of_none _ _ _ fun x hx => by simp [hpre x hx],
    List.find?_cons_of_pos _ (by simp [hd])]
  rfl

/-- C10 witness: with two stored hooks sharing detour 5, resolution returns
the earlier one's original (20), not the later one's (30). -/
theorem resolve_first_match_witness :
    Hook.get_proto_original
      [Hook.mk 1 7 10, Hook.mk 2 5 20, Hook.mk 3 5 30] false 5 = some 20 :=
  resolve_first_match [Hook.mk 1 7 10] [Hook.mk 3 5 30] (Hook.mk 2 5 20) 5 rfl
    (by decide)

/-- C4, corrected. Provided no hook already stored in the registry carries
detour d, a never-installed detour resolves to absent, and a successful
Hook::hook(target, d) reporting original p makes a subsequent
get_proto_original for d return exactly p. (The claim's unconditional form
fails: a pre-existing registry entry with the same detour shadows the new
one, because resolution is a first-match scan; see the counterexample.) -/
theorem hook_then_resolve (st : List Hook) (t d : Nat) (mh : MHOutcome)
    (hfresh : ∀ h ∈ st, h.detour ≠ d) :
    Hook.get_proto_original st false d = none ∧
    (mh.createStatus = 0 →
      (Hook.hook st false t d mh).2 = true ∧
      Hook.get_proto_original (Hook.hook st false t d mh).1 false d = some mh.original) := by
  constructor
  · rw [get_proto_unlocked,
      List.find?_eq_none.mpr fun x hx => by simp [hfresh x hx]]
    rfl
  · intro hcr
    have hhook : Hook.hook st false t d mh = (st ++ [Hook.mk t d mh.original], true) := by
      unfold Hook.hook
      rw [if_neg (by simp), if_pos hcr]
    rw [hhook]
    refine ⟨rfl, ?_⟩
    rw [get_proto_unlocked,
      find?_append_of_none _ _ _ fun x hx => by simp [hfresh x hx],
      List.find?_cons_of_pos _ (by simp)]
    rfl

/-- C4 witness: on a registry holding only detour 7, detour 5 resolves to
absent; installing detour 5 with reported original 20 makes it resolve
to exactly 20. -/
theorem hook_then_resolve_witness :
    Hook.get_proto_original [Hook.mk 1 7 10] false 5 = none ∧
    Hook.get_proto_original
      (Hook.hook [Hook.mk 1 7 10] false 2 5 (MHOutcome.mk 0 20 0)).1 false 5 = some 20 :=
  ⟨(hook_then_resolve [Hook.mk 1 7 10] 2 5 (MHOutcome.mk 0 20 0) (by decide)).1,
   ((hook_then_resolve [Hook.mk 1 7 10] 2 5 (MHOutcome.mk 0 20 0) (by decide)).2 rfl).2⟩

/-- C4 counterexample: the registry already holds {1, 5, 10}; hooking target
2 with the same detour 5 succeeds with reported original 20, yet
get_proto_original(5) returns the earlier original 10, not 20. -/
theorem hook_resolve_shadowed :
    (Hook.hook [Hook.mk 1 5 10] false 2 5 (MHOutcome.mk 0 20 0)).2 = true ∧
    Hook.get_proto_original
      (Hook.hook [Hook.mk 1 5 10] false 2 5 (MHOutcome.mk 0 20 0)).1 false 5 = some 10 ∧
    (10 : Nat) ≠ 20 := by decide

/-- The detours stored after a run of hook calls form a sublist of the
starting detours followed by the calls' detour arguments: each call appends
at most one entry, carrying that call's detour. -/
theorem runHooks_detours_sublist (calls : List HookCall) :
    ∀ st : List Hook,
      ((runHooks calls st).map Hook.detour).Sublist
        (st.map Hook.detour ++ calls.map HookCall.detour) := by
  induction calls with
  | nil =>
    intro st
    simp [runHooks]
  | cons c cs ih =>
    intro st
    have h2 : ((Hook.hook st c.lockPoisoned c.target c.detour c.mh).1.map Hook.detour).Sublist
        (st.map Hook.detour ++ [c.detour]) := by
      unfold Hook.hook
      by_cases hl : c.lockPoisoned = true
      · rw [if_pos hl]
        exact List.sublist_append_left _ _
      · rw [if_neg hl]
        by_cases hc : c.mh.createStatus = 0
        · rw [if_pos hc, List.map_append]
          exact List.Sublist.refl _
        · rw [if_neg hc]
          exact List.sublist_append_left _ _
    have h1 := ih (Hook.hook st c.lockPoisoned c.target c.detour c.mh).1
    have h3 := h2.append (List.Sublist.refl (cs.map HookCall.detour))
    have h4 := h1.trans h3
    simpa [runHooks, List.append_assoc] using h4

/-- C5, corrected. Detour uniqueness in the registry holds exactly as far as
the callers provide it: after any run of Hook::hook calls from the empty
registry whose detour arguments are pairwise distinct, the stored detour
addresses are pairwise distinct. (The unconditional claim fails: hook never
checks for duplicates, so two successful calls with the same detour and
different targets store two entries sharing a detour; see the
counterexample.) -/
theorem registry_detours_nodup (calls : List HookCall)
    (h : (calls.map HookCall.detour).Nodup) :
    ((runHooks calls []).map Hook.detour).Nodup := by
  have hs := runHooks_detours_sublist calls []
  simp only [List.map_nil, List.nil_append] at hs
  exact List.Nodup.sublist hs h

/-- C5 witness: two successful hook calls with distinct detours 5 and 6
leave a registry whose detours are pairwise distinct. -/
theorem registry_detours_nodup_witness :
    ((runHooks [HookCall.mk false 1 5 (MHOutcome.mk 0 10 0),
        HookCall.mk false 2 6 (MHOutcome.mk 0 11 0)] []).map Hook.detour).Nodup :=
  registry_detours_nodup _ (by decide)

/-- C5 counterexample: two successful hook calls on different targets 1 and 2
but the same detour 5 leave a registry whose stored detours [5, 5] are not
pairwise distinct. -/
theorem duplicate_detour_reachable :
    ¬ ((runHooks [HookCall.mk false 1 5 (MHOutcome.mk 0 10 0),
        HookCall.mk false 2 5 (MHOutcome.mk 0 11 0)] []).map Hook.detour).Nodup := by
  decide

/-- C2: evaluation at the failing input. MH_CreateHook succeeds (status 0,
original 7) but MH_EnableHook fails (status 1); Hook::hook nevertheless
appends the entry and reports true, because the source discards the enable
status — contradicting both the claim and the function's own documented
return contract (true only when created and enabled). -/
theorem hook_enable_failure_still_appends :
    Hook.hook [] false 1 2 (MHOutcome.mk 0 7 1) = ([Hook.mk 1 2 7], true) := by
  decide

/-- C9: evaluation at the failing input. With the TARGETS lock poisoned,
get_proto_original returns a recoverable None and Hook::hook returns a
recoverable false with the registry untouched — the thread continues,
although the claim (and both functions' own doc comments) say a poisoned
lock is fatal (a panic) for the calling thread. -/
theorem poisoned_lock_returns_recoverable :
    Hook.get_proto_original [Hook.mk 1 5 10] true 5 = none ∧
    Hook.hook [Hook.mk 1 5 10] true 2 6 (MHOutcome.mk 0 20 0) =
      ([Hook.mk 1 5 10], false) := by
  decide

/-- C3, corrected. A missing CreateInterface export does not surface as
absent: it hits the source's expect and panics. When the export exists, the
factory's result is always wrapped in some — a null factory pointer comes
back as some 0 (Some(null)), not absent; absent arises only when the
interface name cannot become a C string (contains NUL). -/
theorem get_interface_behavior (exports : String → Option Nat)
    (factory : String → Nat) (name : String) :
    (exports "CreateInterface" = none →
      get_interface exports factory name =
        Except.error "Failed to cast CreateInterface to a function pointer") ∧
    (∀ a, exports "CreateInterface" = some a →
      get_interface exports factory name =
        Except.ok (if containsNul name then none else some (factory name))) := by
  constructor
  · intro h
    unfold get_interface
    rw [h]
  · intro a h
    unfold get_interface
    rw [h]
    show (if containsNul name = true then Except.ok none
        else Except.ok (some (factory name))) =
      Except.ok (if containsNul name = true then none else some (factory name))
    split_ifs <;> rfl

/-- C3 witness: with CreateInterface absent the call panics; with it present
the factory's pointer 7 is returned as some 7. -/
theorem get_interface_behavior_witness :
    get_interface (fun _ => none) (fun _ => 7) "VEngineClient014" =
      Except.error "Failed to cast CreateInterface to a function pointer" ∧
    get_interface (fun _ => some 3) (fun _ => 7) "VEngineClient014" =
      Except.ok (some 7) := by
  refine ⟨(get_interface_behavior (fun _ => none) (fun _ => 7) "VEngineClient014").1 rfl, ?_⟩
  have h := (get_interface_behavior (fun _ => some 3) (fun _ => 7) "VEngineClient014").2 3 rfl
  rw [h]
  rfl

/-- C3 counterexample: a missing CreateInterface export produces a panic
(error), not absent; and a factory returning the null pointer produces
some 0 (a present Some(null)), not absent — both against the claim. -/
theorem get_interface_missing_export_panics :
    get_interface (fun _ => none) (fun _ => 0) "Source2Client002" =
      Except.error "Failed to cast CreateInterface to a function pointer" ∧
    get_interface (fun _ => some 1) (fun _ => 0) "Source2Client002" =
      Except.ok (some 0) :=
  ⟨rfl, rfl⟩

/-- C7, confirmed. If a first initialize_modules call from the unset cell
succeeds, any second call fails with "modules are already initialized" and
leaves the registry produced by the first call unchanged: the already-set
check runs before anything else touches the cell. -/
theorem initialize_modules_second_call (lookup₁ lookup₂ : String → Option Nat)
    (names₁ names₂ : List String) (st : Option (List Module)) (u : Unit)
    (h : initialize_modules none lookup₁ names₁ = (st, Except.ok u)) :
    initialize_modules st lookup₂ names₂ =
      (st, Except.error "modules are already initialized") := by
  unfold initialize_modules at h
  rcases hm : namesToModules lookup₁ names₁ with _ | mods
  · rw [hm] at h
    exact absurd (congrArg Prod.snd h) (by simp)
  · rw [hm] at h
    have hst : some mods = st := congrArg Prod.fst h
    rw [← hst]
    rfl

/-- C7 witness: after a successful first initialization producing the
client.dll module, a second call errors with "modules are already
initialized" and returns the registry unchanged. -/
theorem initialize_modules_second_call_witness :
    initialize_modules (some [Module.mk "client.dll" 7]) (fun _ => none) ["engine2.dll"] =
      (some [Module.mk "client.dll" 7],
        Except.error "modules are already initialized") :=
  initialize_modules_second_call (fun _ => some 7) (fun _ => none)
    ["client.dll"] ["engine2.dll"] (some [Module.mk "client.dll" 7]) () rfl

end CS2
